import Mathlib

/-!
# Verification of the raiblocks RPC client (src/raiblocks/client.py)

Shallow embedding of the client's payload construction and response
postprocessing.  JSON values are modelled by `Val`; a decoded JSON object
(a Python dict) is an association list `JObj` with Python dict-assignment
semantics (`dictSet`) and key lookup (`alookup`).  Python truthiness is
`pyTruthy`, and Python's `int(...)` builtin applied to a JSON value is the
fallible `pyInt` (raising `ValueError`/`TypeError` is modelled by `none`).

Each typed operation of `Client` is split into a payload-construction
function (the dict the method passes to `call`) and a response
postprocessing function (what the method does to the decoded node
response before returning it).
-/

/-- A decoded JSON value, as Python represents it after `resp.json()`. -/
inductive Val where
  | vStr : String → Val
  | vInt : Int → Val
  | vBool : Bool → Val
  | vNull : Val
  | vArr : List Val → Val
  | vObj : List (String × Val) → Val
  deriving Repr

/-- A decoded JSON object / Python dict, as an association list. -/
abbrev JObj := List (String × Val)

/-- Python truthiness of a decoded JSON value (`bool(v)`):
empty string, zero, `False`, `None`, empty list and empty dict are falsy. -/
def pyTruthy : Val → Bool
  | Val.vStr s => !(s = "")
  | Val.vInt n => !(n = 0)
  | Val.vBool b => b
  | Val.vNull => false
  | Val.vArr xs => !xs.isEmpty
  | Val.vObj xs => !xs.isEmpty

/-- The decimal value of a nonempty all-digit character list. -/
def digitsVal (l : List Char) : Option Nat :=
  if l ≠ [] ∧ l.all Char.isDigit then
    some (l.foldl (fun a c => 10 * a + (c.toNat - 48)) 0)
  else none

/-- Python `int(s)` on a string: optional surrounding whitespace, an
optional sign, then one or more decimal digits; anything else raises
`ValueError` (modelled `none`).  Python additionally tolerates underscore
separators between digits, which no node response uses and which the
embedding leaves unparsed. -/
def pyIntStr (s : String) : Option Int :=
  let l :=
    ((s.data.dropWhile Char.isWhitespace).reverse.dropWhile
      Char.isWhitespace).reverse
  match l with
  | '-' :: ds => (digitsVal ds).map (fun n => -(n : Int))
  | '+' :: ds => (digitsVal ds).map (fun n => (n : Int))
  | ds => (digitsVal ds).map (fun n => (n : Int))

/-- Python's `int(v)` builtin on a decoded JSON value: parses an integer
string, is the identity on integers, maps booleans to 0/1, and raises
(modelled `none`) on anything else. -/
def pyInt : Val → Option Int
  | Val.vStr s => pyIntStr s
  | Val.vInt n => some n
  | Val.vBool b => some (if b then 1 else 0)
  | _ => none

/-- Key lookup in a Python dict (`d[k]` / `d.get(k)`), first occurrence. -/
def alookup : JObj → String → Option Val
  | [], _ => none
  | (k', v) :: t, k => if k' = k then some v else alookup t k

/-- Python dict assignment `d[k] = v`: replaces the value at an existing
key in place (keeping its position), otherwise appends the new pair at
the end.  A decoded JSON object never has duplicate keys, so replacing
the first occurrence is replacing the occurrence. -/
def dictSet : JObj → String → Val → JObj
  | [], k, v => [(k, v)]
  | (k0, v0) :: t, k, v =>
      if k0 = k then (k, v) :: t else (k0, v0) :: dictSet t k v

/-- Modelled from the spec: `raiblocks.models.Account` (not under src/)
is a tagged string wrapper that performs no real validation, so
`preprocess_account` passes the raw string through. -/
def preprocess_account (account_string : String) : String := account_string

/-- Modelled from the spec: `raiblocks.models.Wallet` (not under src/)
is a tagged string wrapper that performs no real validation, so
`preprocess_wallet` passes the raw string through. -/
def preprocess_wallet (wallet_string : String) : String := wallet_string

/-- `preprocess_strbool(value) = value and 'true' or 'false'`. -/
def preprocess_strbool (value : Val) : Val :=
  if pyTruthy value then Val.vStr "true" else Val.vStr "false"

/-- `preprocess_int(integer_string) = str(int(integer_string))`. -/
def preprocess_int (integer_string : Val) : Option Val :=
  (pyInt integer_string).map (fun n => Val.vStr (toString n))

/-- The outgoing JSON body of `Client.call(action, params)`:
`params = params or {}` followed by `params['action'] = action`. -/
def call_payload (action : String) (params : Option JObj) : JObj :=
  let p : JObj :=
    match params with
    | none => []
    | some l => if pyTruthy (Val.vObj l) then l else []
  dictSet p "action" (Val.vStr action)

/-- The dict `Client.account_balance` passes to `call`. -/
def account_balance_payload (account : String) : JObj :=
  [("account", Val.vStr (preprocess_account account))]

/-- The dict comprehension `{k: int(v) for k, v in resp.items()}` of
`Client.account_balance`, item by item; the first failing `int(v)`
raises, modelled by `none`. -/
def intItems : JObj → Option JObj
  | [] => some []
  | (k, v) :: t => do
      let n ← pyInt v
      let rest ← intItems t
      pure ((k, Val.vInt n) :: rest)

/-- Response postprocessing of `Client.account_balance`. -/
def account_balance_post (resp : JObj) : Option JObj :=
  intItems resp

/-- The dict `Client.account_info` passes to `call`: starts from
`{"account": account}` and adds each optional flag only under
`if flag:`, encoded by `preprocess_strbool`. -/
def account_info_payload (account : String)
    (representative weight pending : Val) : JObj :=
  let payload : JObj := [("account", Val.vStr (preprocess_account account))]
  let payload :=
    if pyTruthy representative
    then dictSet payload "representative" (preprocess_strbool representative)
    else payload
  let payload :=
    if pyTruthy weight
    then dictSet payload "weight" (preprocess_strbool weight)
    else payload
  let payload :=
    if pyTruthy pending
    then dictSet payload "pending" (preprocess_strbool pending)
    else payload
  payload

/-- One step of the `for key in (...)` loop of `Client.account_info`:
`if key in resp: resp[key] = int(resp[key])`. -/
def coerceKey (k : String) (resp : JObj) : Option JObj :=
  match alookup resp k with
  | none => some resp
  | some v => (pyInt v).map (fun n => dictSet resp k (Val.vInt n))

/-- The five response fields `Client.account_info` coerces to integers. -/
def infoKeys : List String :=
  ["modified_timestamp", "block_count", "balance", "pending", "weight"]

/-- Response postprocessing of `Client.account_info`: the `for key in
('modified_timestamp', 'block_count', 'balance', 'pending', 'weight')`
loop, in source order. -/
def account_info_post (resp : JObj) : Option JObj := do
  let r1 ← coerceKey "modified_timestamp" resp
  let r2 ← coerceKey "block_count" r1
  let r3 ← coerceKey "balance" r2
  let r4 ← coerceKey "pending" r3
  coerceKey "weight" r4

/-- The dict `Client.account_history` passes to `call`; building it
already applies `preprocess_int` to `count`, which raises (`none`) on a
non-integer. -/
def account_history_payload (account : String) (count : Val) : Option JObj :=
  (preprocess_int count).map
    (fun c => [("account", Val.vStr (preprocess_account account)), ("count", c)])

/-- The `for entry in history: entry['amount'] = int(entry['amount'])`
loop of `Client.account_history`; a non-dict entry, a missing `amount`
key or a non-integer `amount` raises (`none`). -/
def convertAmounts : List Val → Option (List Val)
  | [] => some []
  | Val.vObj fields :: t => do
      let a ← alookup fields "amount"
      let n ← pyInt a
      let rest ← convertAmounts t
      pure (Val.vObj (dictSet fields "amount" (Val.vInt n)) :: rest)
  | _ :: _ => none

/-- Response postprocessing of `Client.account_history`:
`history = resp.get('history') or []`, then the amount-conversion loop,
returning the (mutated) `history` list. -/
def account_history_post (resp : JObj) : Option (List Val) :=
  let history : Val :=
    match alookup resp "history" with
    | some v => if pyTruthy v then v else Val.vArr []
    | none => Val.vArr []
  match history with
  | Val.vArr entries => convertAmounts entries
  | _ => none

/-- The dict `Client.account_list` passes to `call`. -/
def account_list_payload (wallet : String) : JObj :=
  [("wallet", Val.vStr (preprocess_wallet wallet))]

/-- Response postprocessing of `Client.account_list`:
`return resp.get('accounts') or []`. -/
def account_list_post (resp : JObj) : Val :=
  match alookup resp "accounts" with
  | some v => if pyTruthy v then v else Val.vArr []
  | none => Val.vArr []

/-- Response postprocessing of `Client.version`: the
`for key in ('rpc_version', 'store_version'): resp[key] = int(resp[key])`
loop; a missing key raises `KeyError` (`none`). -/
def version_post (resp : JObj) : Option JObj := do
  let v1 ← alookup resp "rpc_version"
  let n1 ← pyInt v1
  let r1 := dictSet resp "rpc_version" (Val.vInt n1)
  let v2 ← alookup r1 "store_version"
  let n2 ← pyInt v2
  pure (dictSet r1 "store_version" (Val.vInt n2))

/-- Response postprocessing of `Client.stop`: `return 'success' in resp`. -/
def stop_post (resp : JObj) : Bool :=
  resp.any (fun p => p.1 = "success")

/-! ## Dictionary lemmas -/

/-- Lookup after a Python dict assignment: the assigned key now maps to
the new value and every other key is untouched. -/
theorem alookup_dictSet (l : JObj) (k k' : String) (v : Val) :
    alookup (dictSet l k' v) k = if k = k' then some v else alookup l k := by
  induction l with
  | nil =>
    by_cases he : k = k'
    · subst he
      simp [dictSet, alookup]
    · have h2 : ¬ k' = k := fun hh => he hh.symm
      simp [dictSet, alookup, he, h2]
  | cons hd t ih =>
    obtain ⟨k0, v0⟩ := hd
    by_cases hk : k0 = k'
    · subst hk
      by_cases he : k = k0
      · subst he
        simp [dictSet, alookup]
      · have h2 : ¬ k0 = k := fun hh => he hh.symm
        simp [dictSet, alookup, he, h2]
    · simp only [dictSet, if_neg hk]
      by_cases he : k0 = k
      · subst he
        simp [alookup, hk]
      · simp [alookup, he, ih]

theorem alookup_dictSet_self (l : JObj) (k : String) (v : Val) :
    alookup (dictSet l k v) k = some v := by
  simp [alookup_dictSet]

theorem alookup_dictSet_ne (l : JObj) (k k' : String) (v : Val)
    (h : k ≠ k') : alookup (dictSet l k' v) k = alookup l k := by
  simp [alookup_dictSet, h]

/-- `coerceKey` succeeds when the value at its key (if any) converts,
and then rewrites exactly that key. -/
theorem coerceKey_spec (k : String) (l : JObj)
    (H : ∀ v, alookup l k = some v → (pyInt v).isSome = true) :
    ∃ l2, coerceKey k l = some l2 ∧
      alookup l2 k = (alookup l k).bind (fun v => (pyInt v).map Val.vInt) ∧
      ∀ k', k' ≠ k → alookup l2 k' = alookup l k' := by
  unfold coerceKey
  cases hl : alookup l k with
  | none => exact ⟨l, rfl, by simp [hl], fun _ _ => rfl⟩
  | some v =>
    have hs := H v hl
    cases hp : pyInt v with
    | none =>
      rw [hp] at hs
      simp at hs
    | some n =>
      refine ⟨dictSet l k (Val.vInt n), by simp [hp], ?_, ?_⟩
      · simp [alookup_dictSet_self, hl, hp]
      · intro k' hk
        exact alookup_dictSet_ne l k' k (Val.vInt n) hk

/-- Full characterization of the `account_info` response loop: when every
present coercible field converts, the loop succeeds, rewrites exactly the
five enumerated keys, and leaves every other key untouched. -/
theorem account_info_post_spec (resp : JObj)
    (H : ∀ k ∈ infoKeys, ∀ v,
      alookup resp k = some v → (pyInt v).isSome = true) :
    ∃ out, account_info_post resp = some out ∧
      (∀ k, k ∉ infoKeys → alookup out k = alookup resp k) ∧
      (∀ k ∈ infoKeys, alookup out k =
        (alookup resp k).bind (fun v => (pyInt v).map Val.vInt)) := by
  obtain ⟨r1, e1, s1, o1⟩ := coerceKey_spec "modified_timestamp" resp
    (H "modified_timestamp" (by simp [infoKeys]))
  obtain ⟨r2, e2, s2, o2⟩ := coerceKey_spec "block_count" r1 (by
    intro v hv
    rw [o1 "block_count" (by decide)] at hv
    exact H "block_count" (by simp [infoKeys]) v hv)
  obtain ⟨r3, e3, s3, o3⟩ := coerceKey_spec "balance" r2 (by
    intro v hv
    rw [o2 "balance" (by decide), o1 "balance" (by decide)] at hv
    exact H "balance" (by simp [infoKeys]) v hv)
  obtain ⟨r4, e4, s4, o4⟩ := coerceKey_spec "pending" r3 (by
    intro v hv
    rw [o3 "pending" (by decide), o2 "pending" (by decide),
      o1 "pending" (by decide)] at hv
    exact H "pending" (by simp [infoKeys]) v hv)
  obtain ⟨r5, e5, s5, o5⟩ := coerceKey_spec "weight" r4 (by
    intro v hv
    rw [o4 "weight" (by decide), o3 "weight" (by decide),
      o2 "weight" (by decide), o1 "weight" (by decide)] at hv
    exact H "weight" (by simp [infoKeys]) v hv)
  refine ⟨r5, ?_, ?_, ?_⟩
  · simp [account_info_post, e1, e2, e3, e4, e5]
  · intro k hk
    simp only [infoKeys, List.mem_cons, List.not_mem_nil, or_false,
      not_or] at hk
    obtain ⟨n1, n2, n3, n4, n5⟩ := hk
    rw [o5 k n5, o4 k n4, o3 k n3, o2 k n2, o1 k n1]
  · intro k hk
    simp only [infoKeys, List.mem_cons, List.not_mem_nil, or_false] at hk
    rcases hk with rfl | rfl | rfl | rfl | rfl
    · rw [o5 _ (by decide), o4 _ (by decide), o3 _ (by decide),
        o2 _ (by decide), s1]
    · rw [o5 _ (by decide), o4 _ (by decide), o3 _ (by decide), s2,
        o1 _ (by decide)]
    · rw [o5 _ (by decide), o4 _ (by decide), s3, o2 _ (by decide),
        o1 _ (by decide)]
    · rw [o5 _ (by decide), s4, o3 _ (by decide), o2 _ (by decide),
        o1 _ (by decide)]
    · rw [s5, o4 _ (by decide), o3 _ (by decide), o2 _ (by decide),
        o1 _ (by decide)]

/-- `intItems` on a response of convertible values: succeeds, keeps the
keys in order, and converts every value to an integer. -/
theorem intItems_spec (l : JObj)
    (H : ∀ p ∈ l, (pyInt p.2).isSome = true) :
    ∃ out, intItems l = some out ∧
      out.map Prod.fst = l.map Prod.fst ∧
      ∀ p ∈ out, ∃ n, p.2 = Val.vInt n := by
  induction l with
  | nil => exact ⟨[], rfl, rfl, by simp⟩
  | cons hd t ih =>
    obtain ⟨k, v⟩ := hd
    have hv := H (k, v) (List.mem_cons_self _ _)
    cases hp : pyInt v with
    | none =>
      rw [hp] at hv
      simp at hv
    | some n =>
      obtain ⟨out, e, km, iv⟩ := ih (fun p hp2 => H p (List.mem_cons_of_mem _ hp2))
      refine ⟨(k, Val.vInt n) :: out, ?_, ?_, ?_⟩
      · simp [intItems, hp, e]
      · simp [km]
      · intro p hp2
        rcases List.mem_cons.mp hp2 with rfl | h
        · exact ⟨n, rfl⟩
        · exact iv p h

/-- The amount-conversion loop on a list of history entries whose
`amount` fields convert: succeeds, keeps the length, and every returned
entry carries an integer `amount`. -/
theorem convertAmounts_spec (entries : List JObj)
    (H : ∀ e ∈ entries, ∃ v,
      alookup e "amount" = some v ∧ (pyInt v).isSome = true) :
    ∃ out, convertAmounts (entries.map Val.vObj) = some out ∧
      out.length = entries.length ∧
      ∀ e2 ∈ out, ∃ fields n, e2 = Val.vObj fields ∧
        alookup fields "amount" = some (Val.vInt n) := by
  induction entries with
  | nil => exact ⟨[], rfl, rfl, by simp⟩
  | cons e t ih =>
    obtain ⟨v, hv, hs⟩ := H e (List.mem_cons_self _ _)
    cases hp : pyInt v with
    | none =>
      rw [hp] at hs
      simp at hs
    | some n =>
      obtain ⟨out, eq2, len2, prop2⟩ :=
        ih (fun x hx => H x (List.mem_cons_of_mem _ hx))
      refine ⟨Val.vObj (dictSet e "amount" (Val.vInt n)) :: out, ?_, ?_, ?_⟩
      · simp [convertAmounts, hv, hp, eq2]
      · simp [len2]
      · intro e2 he2
        rcases List.mem_cons.mp he2 with rfl | h
        · exact ⟨dictSet e "amount" (Val.vInt n), n, rfl,
            alookup_dictSet_self _ _ _⟩
        · exact prop2 e2 h

/-! ## Claims -/

/-- C1: for every account identifier and every node response whose values
are string-encoded integers, `account_balance` returns a mapping with the
same keys in which every value has been converted to an integer, never
left as a string. -/
theorem claim_C1_account_balance_all_int (resp : JObj)
    (H : ∀ p ∈ resp, ∃ s n, p.2 = Val.vStr s ∧ pyIntStr s = some n) :
    ∃ out, account_balance_post resp = some out ∧
      out.map Prod.fst = resp.map Prod.fst ∧
      ∀ p ∈ out, ∃ n, p.2 = Val.vInt n := by
  apply intItems_spec
  intro p hp
  obtain ⟨s, n, hv, hn⟩ := H p hp
  rw [hv]
  simp [pyInt, hn]

/-- Witness for C1 at the docstring's example response. -/
theorem claim_C1_witness :
    ∃ out, account_balance_post
        [("balance", Val.vStr "10000"), ("pending", Val.vStr "10000")] =
        some out ∧
      out.map Prod.fst =
        [("balance", Val.vStr "10000"),
         ("pending", Val.vStr "10000")].map Prod.fst ∧
      ∀ p ∈ out, ∃ n, p.2 = Val.vInt n :=
  claim_C1_account_balance_all_int _ (by
    intro p hp
    simp only [List.mem_cons, List.not_mem_nil, or_false] at hp
    rcases hp with rfl | rfl
    · exact ⟨"10000", 10000, rfl, by rfl⟩
    · exact ⟨"10000", 10000, rfl, by rfl⟩)

/-- C2: each optional flag (`representative`, `weight`, `pending`) appears
in the dict `account_info` passes to `call` iff its value is truthy, and
then with value exactly the string "true"; with all three flags at their
default `False` that dict holds only the account field. -/
theorem claim_C2_account_info_flags (account : String)
    (representative weight pending : Val) :
    (alookup (account_info_payload account representative weight pending)
        "representative" =
      if pyTruthy representative then some (Val.vStr "true") else none) ∧
    (alookup (account_info_payload account representative weight pending)
        "weight" =
      if pyTruthy weight then some (Val.vStr "true") else none) ∧
    (alookup (account_info_payload account representative weight pending)
        "pending" =
      if pyTruthy pending then some (Val.vStr "true") else none) ∧
    account_info_payload account (Val.vBool false) (Val.vBool false)
        (Val.vBool false) = [("account", Val.vStr account)] := by
  refine ⟨?_, ?_, ?_, rfl⟩ <;>
  · by_cases hr : pyTruthy representative <;>
      by_cases hw : pyTruthy weight <;>
        by_cases hp2 : pyTruthy pending <;>
          simp [account_info_payload, preprocess_strbool, preprocess_account,
            hr, hw, hp2, alookup_dictSet, alookup]

/-- C3: when the response lacks `history` (for account_history) or
`accounts` (for account_list), the operations return an empty list,
never null or an absent value. -/
theorem claim_C3_missing_field_empty (resp1 resp2 : JObj)
    (h1 : alookup resp1 "history" = none)
    (h2 : alookup resp2 "accounts" = none) :
    account_history_post resp1 = some [] ∧
    account_list_post resp2 = Val.vArr [] := by
  constructor
  · simp [account_history_post, h1, convertAmounts]
  · simp [account_list_post, h2]

/-- Witness for C3 on a response carrying neither field. -/
theorem claim_C3_witness :
    account_history_post [("foo", Val.vStr "bar")] = some [] ∧
    account_list_post [("foo", Val.vStr "bar")] = Val.vArr [] :=
  claim_C3_missing_field_empty _ _ (by rfl) (by rfl)

/-- C4: the outgoing payload of `call(action, params)` is the caller's
params with `action` inserted (overwriting any existing entry) and every
other key left with its original value. -/
theorem claim_C4_call_injects_action (action : String) (ps : JObj) :
    alookup (call_payload action (some ps)) "action" =
      some (Val.vStr action) ∧
    ∀ k, k ≠ "action" →
      alookup (call_payload action (some ps)) k = alookup ps k := by
  constructor
  · by_cases hp : pyTruthy (Val.vObj ps) <;>
      simp [call_payload, hp, alookup_dictSet_self]
  · intro k hk
    by_cases hp : pyTruthy (Val.vObj ps)
    · simp [call_payload, hp, alookup_dictSet_ne _ _ _ _ hk]
    · have hnil : ps = [] := by
        cases ps with
        | nil => rfl
        | cons a t => simp [pyTruthy] at hp
      subst hnil
      simp [call_payload, alookup_dictSet_ne _ _ _ _ hk, alookup, Ne.symm hk]

/-- Witness for C4: params already holding another key and a stale
`action` entry. -/
theorem claim_C4_witness :
    alookup (call_payload "account_balance"
        (some [("account", Val.vStr "xrb_1"), ("action", Val.vStr "old")]))
      "action" = some (Val.vStr "account_balance") ∧
    alookup (call_payload "account_balance"
        (some [("account", Val.vStr "xrb_1"), ("action", Val.vStr "old")]))
      "account" = some (Val.vStr "xrb_1") := by
  have h := claim_C4_call_injects_action "account_balance"
    [("account", Val.vStr "xrb_1"), ("action", Val.vStr "old")]
  exact ⟨h.1, (h.2 "account" (by decide)).trans (by rfl)⟩

/-- C5: `account_info` converts exactly the fields modified_timestamp,
block_count, balance, pending and weight to integers, each only when
present in the response, and returns every other field unchanged. -/
theorem claim_C5_account_info_frame (resp : JObj)
    (H : ∀ k ∈ infoKeys, ∀ v,
      alookup resp k = some v → (pyInt v).isSome = true) :
    ∃ out, account_info_post resp = some out ∧
      (∀ k, k ∉ infoKeys → alookup out k = alookup resp k) ∧
      (∀ k ∈ infoKeys, alookup out k =
        (alookup resp k).bind (fun v => (pyInt v).map Val.vInt)) :=
  account_info_post_spec resp H

/-- Witness for C5 on a response with one coercible field present, one
absent, and a field outside the enumerated five. -/
theorem claim_C5_witness :
    ∃ out, account_info_post
        [("frontier", Val.vStr "FF"), ("balance", Val.vStr "235")] =
        some out ∧
      (∀ k, k ∉ infoKeys → alookup out k =
        alookup [("frontier", Val.vStr "FF"),
          ("balance", Val.vStr "235")] k) ∧
      (∀ k ∈ infoKeys, alookup out k =
        (alookup [("frontier", Val.vStr "FF"),
          ("balance", Val.vStr "235")] k).bind
          (fun v => (pyInt v).map Val.vInt)) :=
  claim_C5_account_info_frame _ (by
    intro k hk v hv
    simp only [infoKeys, List.mem_cons, List.not_mem_nil, or_false] at hk
    rcases hk with rfl | rfl | rfl | rfl | rfl
    · simp [alookup] at hv
    · simp [alookup] at hv
    · simp [alookup] at hv
      subst hv
      rfl
    · simp [alookup] at hv
    · simp [alookup] at hv)

/-- C6: when the response carries `rpc_version` and `store_version` as
numeric strings, `version` converts exactly those two fields to integers
and returns every other field unchanged. -/
theorem claim_C6_version_converts (resp : JObj) (s1 s2 : String)
    (n1 n2 : Int)
    (h1 : alookup resp "rpc_version" = some (Val.vStr s1))
    (hp1 : pyIntStr s1 = some n1)
    (h2 : alookup resp "store_version" = some (Val.vStr s2))
    (hp2 : pyIntStr s2 = some n2) :
    ∃ out, version_post resp = some out ∧
      alookup out "rpc_version" = some (Val.vInt n1) ∧
      alookup out "store_version" = some (Val.vInt n2) ∧
      ∀ k, k ≠ "rpc_version" → k ≠ "store_version" →
        alookup out k = alookup resp k := by
  refine ⟨dictSet (dictSet resp "rpc_version" (Val.vInt n1))
    "store_version" (Val.vInt n2), ?_, ?_, ?_, ?_⟩
  · simp [version_post, h1, h2, pyInt, hp1, hp2, alookup_dictSet]
  · simp [alookup_dictSet]
  · simp [alookup_dictSet]
  · intro k hk1 hk2
    simp [alookup_dictSet, hk1, hk2]

/-- Witness for C6 at the spec's example response. -/
theorem claim_C6_witness :
    ∃ out, version_post [("rpc_version", Val.vStr "1"),
        ("store_version", Val.vStr "10"),
        ("node_vendor", Val.vStr "X")] = some out ∧
      alookup out "rpc_version" = some (Val.vInt 1) ∧
      alookup out "store_version" = some (Val.vInt 10) ∧
      ∀ k, k ≠ "rpc_version" → k ≠ "store_version" →
        alookup out k = alookup [("rpc_version", Val.vStr "1"),
          ("store_version", Val.vStr "10"),
          ("node_vendor", Val.vStr "X")] k :=
  claim_C6_version_converts _ "1" "10" 1 10 rfl (by rfl) rfl (by rfl)

/-- C7: `stop` returns true iff the response mapping contains the key
`success`, whatever the value stored under it. -/
theorem claim_C7_stop_success_key (resp : JObj) :
    stop_post resp = true ↔ ∃ v, ("success", v) ∈ resp := by
  simp only [stop_post, List.any_eq_true, decide_eq_true_eq]
  constructor
  · rintro ⟨⟨k, v⟩, hm, hk⟩
    simp only at hk
    subst hk
    exact ⟨v, hm⟩
  · rintro ⟨v, hm⟩
    exact ⟨("success", v), hm, rfl⟩

/-- C8: `account_history` sends `count` as a stringified integer in its
payload, defaults to the empty list when `history` is absent, and
converts each returned entry's `amount` field to an integer. -/
theorem claim_C8_account_history (account : String) (n : Int) (resp : JObj)
    (entries : List JObj)
    (hh : alookup resp "history" = some (Val.vArr (entries.map Val.vObj)))
    (hamt : ∀ e ∈ entries, ∃ s m,
      alookup e "amount" = some (Val.vStr s) ∧ pyIntStr s = some m) :
    account_history_payload account (Val.vInt n) =
      some [("account", Val.vStr account),
            ("count", Val.vStr (toString n))] ∧
    (∀ r : JObj, alookup r "history" = none →
      account_history_post r = some []) ∧
    ∃ out, account_history_post resp = some out ∧
      out.length = entries.length ∧
      ∀ e2 ∈ out, ∃ fields m, e2 = Val.vObj fields ∧
        alookup fields "amount" = some (Val.vInt m) := by
  refine ⟨?_, ?_, ?_⟩
  · simp [account_history_payload, preprocess_int, pyInt, preprocess_account]
  · intro r hr
    simp [account_history_post, hr, convertAmounts]
  · obtain ⟨out, he2, hlen, hprop⟩ := convertAmounts_spec entries (by
      intro e he
      obtain ⟨s, m, ha, hm⟩ := hamt e he
      exact ⟨Val.vStr s, ha, by simp [pyInt, hm]⟩)
    refine ⟨out, ?_, hlen, hprop⟩
    have hred : (if pyTruthy (Val.vArr (entries.map Val.vObj))
        then Val.vArr (entries.map Val.vObj) else Val.vArr []) =
        Val.vArr (entries.map Val.vObj) := by
      cases entries with
      | nil => simp [pyTruthy]
      | cons e t => simp [pyTruthy]
    simp only [account_history_post, hh, hred]
    exact he2

/-- Witness for C8 at the docstring's example history entry. -/
theorem claim_C8_witness :
    account_history_payload "xrb_3e3j" (Val.vInt 1) =
      some [("account", Val.vStr "xrb_3e3j"),
            ("count", Val.vStr (toString (1 : Int)))] ∧
    (∀ r : JObj, alookup r "history" = none →
      account_history_post r = some []) ∧
    ∃ out, account_history_post
        [("history", Val.vArr [Val.vObj
          [("hash", Val.vStr "000D"),
           ("amount", Val.vStr "100000000000000000000000000000000")]])] =
        some out ∧
      out.length = ([[("hash", Val.vStr "000D"),
        ("amount", Val.vStr "100000000000000000000000000000000")]] :
          List JObj).length ∧
      ∀ e2 ∈ out, ∃ fields m, e2 = Val.vObj fields ∧
        alookup fields "amount" = some (Val.vInt m) :=
  claim_C8_account_history "xrb_3e3j" 1 _ _ rfl (by
    intro e he
    simp only [List.mem_cons, List.not_mem_nil, or_false] at he
    subst he
    exact ⟨"100000000000000000000000000000000",
      100000000000000000000000000000000, rfl, by rfl⟩)

/-- C9 as stated is false at `account_balance`: the blanket integer
coercion is applied to the `error` field too, so a response carrying a
non-numeric error string makes the library raise instead of returning
the field as ordinary data. -/
theorem claim_C9_counterexample :
    account_balance_post [("error", Val.vStr "Bad account number")] =
      none := by
  rfl

/-- C9 amended: the library never inspects or special-cases an error
field by key; for `account_info`, whose postprocessing touches only the
five enumerated fields, an `error` field is returned to the caller
unchanged with no error raised — but `account_balance` feeds the error
value through its blanket integer coercion like any other field. -/
theorem claim_C9_amended_error_passthrough (resp : JObj) (s : String)
    (he : alookup resp "error" = some (Val.vStr s))
    (H : ∀ k ∈ infoKeys, ∀ v,
      alookup resp k = some v → (pyInt v).isSome = true) :
    ∃ out, account_info_post resp = some out ∧
      alookup out "error" = some (Val.vStr s) := by
  obtain ⟨out, e, hframe, _⟩ := account_info_post_spec resp H
  exact ⟨out, e, by rw [hframe "error" (by decide), he]⟩

/-- Witness for the amended C9 on a node error response. -/
theorem claim_C9_witness :
    ∃ out, account_info_post
        [("error", Val.vStr "Bad account number")] = some out ∧
      alookup out "error" = some (Val.vStr "Bad account number") :=
  claim_C9_amended_error_passthrough _ "Bad account number" rfl (by
    intro k hk v hv
    simp only [infoKeys, List.mem_cons, List.not_mem_nil, or_false] at hk
    rcases hk with rfl | rfl | rfl | rfl | rfl <;> simp [alookup] at hv)

/-- C10: when `history` (for account_history) or `accounts` (for
account_list) is present but falsy — null or an empty collection — the
operation returns an empty list rather than that value, because of the
falsy-coalescing `or []`. -/
theorem claim_C10_falsy_coalesce (resp1 resp2 : JObj) (v w : Val)
    (h1 : alookup resp1 "history" = some v) (hv : pyTruthy v = false)
    (h2 : alookup resp2 "accounts" = some w) (hw : pyTruthy w = false) :
    account_history_post resp1 = some [] ∧
    account_list_post resp2 = Val.vArr [] := by
  constructor
  · simp [account_history_post, h1, hv, convertAmounts]
  · simp [account_list_post, h2, hw]

/-- Witness for C10: `history` present as null, `accounts` present as an
empty list. -/
theorem claim_C10_witness :
    account_history_post [("history", Val.vNull)] = some [] ∧
    account_list_post [("accounts", Val.vArr [])] = Val.vArr [] :=
  claim_C10_falsy_coalesce _ _ Val.vNull (Val.vArr [])
    rfl rfl rfl rfl
